import Mathlib

/-
Verification of the needle-generation core of the dxr clang plugin
(dxr/plugins/clang/needles.py), shallowly embedded in Lean 4.

The condensed fact store is a table-name-keyed association list whose
values are either sequences of facts or further mappings (grouped-by-kind
metadata, skipped by the generators).  Spans are row/column ranges; facts
carry the fields the generators probe for.
-/

namespace DxrClang

/-- A position in a file: row (line) and column. -/
structure Pos where
  row : Nat
  col : Nat
deriving DecidableEq

/-- A span: the start and stop positions of a fact in its file. -/
structure Span where
  start : Pos
  stop : Pos
deriving DecidableEq

/-- The override attribute of a function fact: the overridden symbol's
name and qualname (each optional, mirroring dict-key presence in the
source) and its recorded span. -/
structure Override where
  name : Option String
  qualname : Option String
  span : Span
deriving DecidableEq

/-- One analysis fact.  Optional fields model dict keys the source probes
for with membership tests (`scope`, `override`); the remaining fields are
accessed unconditionally by the generators that use them. -/
structure Fact where
  name : String
  qualname : String
  span : Span
  kind : String
  type : String
  scope : Option String
  override : Option Override
  msg : String
  opt : String
deriving DecidableEq

/-- A table value in the condensed store: either a sequence of facts or a
further mapping (which `is_mapping` detects and `member_needles` skips). -/
inductive TableVal where
  | facts (fs : List Fact)
  | mapping (m : List (String × List Fact))
deriving DecidableEq

/-- The condensed fact store: table name to table value. -/
abbrev Condensed := List (String × TableVal)

/-- A call edge: caller and callee, each a (name, span) pair. -/
structure CallEdge where
  caller : String × Span
  callee : String × Span
deriving DecidableEq

/-- The inheritance map: parent name to list of direct child names. -/
abbrev InheritMap := List (String × List String)

/-- The value carried by a qualified/ref/warning needle: either a
name+qualname mapping or a name-only mapping. -/
inductive NValue where
  | nq (name qualname : String)
  | n (name : String)
deriving DecidableEq

/-- A needle of the qualified/ref/warning families: (tag, value, span). -/
abbrev Needle := String × NValue × Span

/-- A needle of the relational families: ((tag, value), span). -/
abbrev RelNeedle := (String × String) × Span

/-- Raw lookup of a table by name in the condensed store. -/
def lookupTable (condensed : Condensed) (key : String) : Option TableVal :=
  (condensed.find? (fun p => p.1 == key)).map (fun p => p.2)

/-- Modelled from the spec: the condensed store is produced by the
condenser (outside src/), and a store that lacks an expected table is
treated as holding zero facts of that kind, not as an error; a
mapping-valued table is grouped-by-kind metadata, not a fact sequence. -/
def getTable (condensed : Condensed) (key : String) : List Fact :=
  match lookupTable condensed key with
  | some (TableVal.facts fs) => fs
  | _ => []

/-- Lookup of a parent's children in the inheritance map, defaulting to
the empty list (Python `inherit.get(name, [])`). -/
def inheritGet (inherit : InheritMap) (name : String) : List String :=
  match inherit.find? (fun p => p.1 == name) with
  | some p => p.2
  | none => []

/-- Return needles ((c-callee, callee name), span): one per call edge,
at the callee's recorded span. -/
def callee_needles (graph : List CallEdge) : List RelNeedle :=
  graph.map (fun call => (("c-callee", call.callee.1), call.callee.2))

/-- Return needles ((c-called-by, caller name), span): one per call
edge, at the caller's recorded span. -/
def caller_needles (graph : List CallEdge) : List RelNeedle :=
  graph.map (fun call => (("c-called-by", call.caller.1), call.caller.2))

/-- Return needles ((c-sig, type), span) for every function fact. -/
def sig_needles (condensed : Condensed) : List RelNeedle :=
  (getTable condensed "function").map (fun o => (("c-sig", o.type), o.span))

/-- Return needles ((c-tag, val), span): for every class-kind type fact,
one needle per name produced by `func` from the fact's name, at the
fact's span. -/
def inherit_needles (condensed : Condensed) (tag : String)
    (func : String → List String) : List RelNeedle :=
  ((getTable condensed "type").filter (fun c => c.kind == "class")).flatMap
    (fun c => (func c.name).map (fun x => (("c-" ++ tag, x), c.span)))

/-- Return needles representing subclass relationships. -/
def child_needles (condensed : Condensed) (inherit : InheritMap) :
    List RelNeedle :=
  inherit_needles condensed "child" (fun name => inheritGet inherit name)

/-- Return needles representing super class relationships: parents are
found by scanning the map for entries whose child list contains the
name. -/
def parent_needles (condensed : Condensed) (inherit : InheritMap) :
    List RelNeedle :=
  inherit_needles condensed "parent"
    (fun name => (inherit.filter (fun p => p.2.contains name)).map
      (fun p => p.1))

/-- Return needles for the scopes that various symbols belong to:
mapping-valued tables are skipped, facts without a scope are skipped. -/
def member_needles (condensed : Condensed) : List RelNeedle :=
  condensed.flatMap (fun entry =>
    match entry.2 with
    | TableVal.mapping _ => []
    | TableVal.facts fs =>
        fs.filterMap (fun val =>
          val.scope.map (fun s => (("c-member", s), val.span))))

/-- The two name keys the override needle generators are invoked with
(the source passes the strings "name" and "qualname"). -/
inductive NameKey where
  | name
  | qualname
deriving DecidableEq

/-- Presence and value of a name key on an override attribute (Python
`name_key in func['override']` / `func['override'][name_key]`). -/
def overrideGet (o : Override) : NameKey → Option String
  | NameKey.name => o.name
  | NameKey.qualname => o.qualname

/-- Shared generator of override needles: for every function fact whose
override attribute carries the requested name key, one needle tagged
c-tag with the override's value for that key, at the span selected by
get_span. -/
def _over_needles (condensed : Condensed) (tag : String)
    (name_key : NameKey) (get_span : Fact → Override → Span) :
    List RelNeedle :=
  (getTable condensed "function").filterMap (fun func =>
    func.override.bind (fun o =>
      (overrideGet o name_key).map (fun v =>
        (("c-" ++ tag, v), get_span func o))))

/-- Return needles of methods which override the given one: at the
overriding function's own span. -/
def overrides_needles (condensed : Condensed) : List RelNeedle :=
  _over_needles condensed "overrides" NameKey.name (fun f _ => f.span) ++
  _over_needles condensed "overrides" NameKey.qualname (fun f _ => f.span)

/-- Return needles of methods which are overridden by the given one: at
the override target's recorded span. -/
def overridden_needles (condensed : Condensed) : List RelNeedle :=
  _over_needles condensed "overridden" NameKey.name (fun _ o => o.span) ++
  _over_needles condensed "overridden" NameKey.qualname (fun _ o => o.span)

/-- Return needles for a kind of thing that has a name and qualname: one
needle per fact of the table named by condensed_key (defaulting to the
kind), tagged c_kind. -/
def qualified_needles (condensed : Condensed) (kind : String)
    (condensed_key : Option String) : List Needle :=
  (getTable condensed (condensed_key.getD kind)).map (fun f =>
    ("c_" ++ kind, NValue.nq f.name f.qualname, f.span))

/-- Return needles for references to a certain kind of thing: one needle
per reference fact whose kind equals the requested key, tagged
c_kind_ref, at the reference's own span. -/
def ref_needles (condensed : Condensed) (kind : String)
    (condensed_key : Option String) : List Needle :=
  ((getTable condensed "ref").filter
      (fun f => f.kind == condensed_key.getD kind)).map (fun f =>
    ("c_" ++ kind ++ "_ref", NValue.nq f.name f.qualname, f.span))

/-- Return needles for warnings: one c_warning needle per warning fact,
valued with the warning message. -/
def warning_needles (condensed : Condensed) : List Needle :=
  (getTable condensed "warning").map (fun w =>
    ("c_warning", NValue.n w.msg, w.span))

/-- Return needles about the command-line options that call forth
warnings. -/
def warning_opt_needles (condensed : Condensed) : List Needle :=
  (getTable condensed "warning").map (fun w =>
    ("c_warning_opt", NValue.n w.opt, w.span))

/-- A per-line fragment of a needle after splitting: tag, value, row,
start column, and end column (none meaning the end of the line, whose
length the folder does not know). -/
structure SplitNeedle where
  tag : String
  value : NValue
  row : Nat
  startCol : Nat
  endCol : Option Nat
deriving DecidableEq

/-- A needle fragment as it appears inside a line record: tag, value and
within-line start/end columns. -/
structure LineFragment where
  tag : String
  value : NValue
  startCol : Nat
  endCol : Option Nat
deriving DecidableEq

/-- One per-line index record: the line number and the fragments of all
needles intersecting that line, in emission order. -/
structure LineRecord where
  line : Nat
  fragments : List LineFragment
deriving DecidableEq

/-- Modelled from the spec: split one needle into per-line fragments
(`split_into_lines` lives in dxr/indexers.py, not under src/).  A needle
spanning lines i..j yields one fragment per line: the first starts at
the span's start column and runs to the end of its line, intermediate
lines run whole, and the last ends at the span's end column; a
single-line needle yields one fully bounded fragment. -/
def split_needle (nd : Needle) : List SplitNeedle :=
  match nd with
  | (tag, v, sp) =>
    if sp.start.row = sp.stop.row then
      [⟨tag, v, sp.start.row, sp.start.col, some sp.stop.col⟩]
    else
      (⟨tag, v, sp.start.row, sp.start.col, none⟩ ::
        (List.range (sp.stop.row - sp.start.row - 1)).map (fun k =>
          ⟨tag, v, sp.start.row + 1 + k, 0, none⟩)) ++
      [⟨tag, v, sp.stop.row, 0, some sp.stop.col⟩]

/-- Modelled from the spec: split every needle of the stream into
per-line fragments, preserving emission order. -/
def split_into_lines (nds : List Needle) : List SplitNeedle :=
  nds.flatMap split_needle

/-- Modelled from the spec: attach the within-line start and end column
to each fragment (`with_start_and_end` lives in dxr/indexers.py, not
under src/), pairing it with its line number. -/
def with_start_and_end (nds : List SplitNeedle) :
    List (Nat × LineFragment) :=
  nds.map (fun nd => (nd.row, ⟨nd.tag, nd.value, nd.startCol, nd.endCol⟩))

/-- Insertion of a line number into an ascending list. -/
def insertAsc (x : Nat) : List Nat → List Nat
  | [] => [x]
  | y :: ys => if x ≤ y then x :: y :: ys else y :: insertAsc x ys

/-- Ascending insertion sort of line numbers. -/
def sortAsc (l : List Nat) : List Nat := l.foldr insertAsc []

/-- Modelled from the spec: group the fragments by line
(`iterable_per_line` lives in dxr/indexers.py, not under src/): one
record per distinct line touched, lines in ascending order, fragments
within a line in original emission order. -/
def iterable_per_line (nds : List (Nat × LineFragment)) :
    List LineRecord :=
  (sortAsc (nds.map (fun p => p.1)).eraseDups).map (fun r =>
    ⟨r, (nds.filter (fun p => p.1 == r)).map (fun p => p.2)⟩)

/-- Return all needles of the clang plugin: the qualified, reference and
warning families, folded into per-line records.  The second and third
arguments are ignored by the source (named there _1 and _2). -/
def needles {α β : Type} (condensed : Condensed) (_1 : α) (_2 : β) :
    List LineRecord :=
  iterable_per_line (with_start_and_end (split_into_lines (
    qualified_needles condensed "function" none ++
    ref_needles condensed "function" none ++
    qualified_needles condensed "type" none ++
    ref_needles condensed "type" none ++
    qualified_needles condensed "type" (some "typedef") ++
    ref_needles condensed "type" (some "typedef") ++
    qualified_needles condensed "var" (some "variable") ++
    ref_needles condensed "var" (some "variable") ++
    qualified_needles condensed "namespace" none ++
    ref_needles condensed "namespace" none ++
    qualified_needles condensed "namespace_alias" none ++
    ref_needles condensed "namespace_alias" none ++
    warning_needles condensed ++
    warning_opt_needles condensed)))

/-- The needle tags of the qualified, reference and warning families that
the top-level pipeline can emit. -/
def qualRefWarnTags : List String :=
  ["c_function", "c_function_ref", "c_type", "c_type_ref", "c_var",
   "c_var_ref", "c_namespace", "c_namespace_ref", "c_namespace_alias",
   "c_namespace_alias_ref", "c_warning", "c_warning_opt"]

/-- The needle tags of the relational families, none of which the
top-level pipeline emits. -/
def relationalTags : List String :=
  ["c-callee", "c-called-by", "c-parent", "c-child", "c-member",
   "c-overrides", "c-overridden", "c-sig"]

/-- Characterization of membership in the shared override needle
generator. -/
theorem over_needles_mem (condensed : Condensed) (tag : String)
    (nk : NameKey) (get_span : Fact → Override → Span) (nd : RelNeedle) :
    nd ∈ _over_needles condensed tag nk get_span ↔
      ∃ f ∈ getTable condensed "function", ∃ o, f.override = some o ∧
        ∃ v, overrideGet o nk = some v ∧
          nd = (("c-" ++ tag, v), get_span f o) := by
  simp only [_over_needles, List.mem_filterMap, Option.bind_eq_some,
    Option.map_eq_some']
  constructor
  · rintro ⟨f, hf, o, ho, v, hv, h⟩
    exact ⟨f, hf, o, ho, v, hv, h.symm⟩
  · rintro ⟨f, hf, o, ho, v, hv, h⟩
    exact ⟨f, hf, o, ho, v, hv, h.symm⟩

/-- Claim C1, counterexample: for the single call edge with caller
("A", span on line 1) and callee ("B", span on line 2), the c-callee
needle is not placed at the caller's span and the c-called-by needle is
not placed at the callee's span, contrary to the claim. -/
theorem callee_caller_span_counterexample :
    (("c-callee", "B"), (⟨⟨1, 0⟩, ⟨1, 5⟩⟩ : Span)) ∉
      callee_needles [⟨("A", ⟨⟨1, 0⟩, ⟨1, 5⟩⟩), ("B", ⟨⟨2, 0⟩, ⟨2, 5⟩⟩)⟩] ∧
    (("c-called-by", "A"), (⟨⟨2, 0⟩, ⟨2, 5⟩⟩ : Span)) ∉
      caller_needles [⟨("A", ⟨⟨1, 0⟩, ⟨1, 5⟩⟩), ("B", ⟨⟨2, 0⟩, ⟨2, 5⟩⟩)⟩] := by
  decide

/-- Claim C1 (amended): for every call edge with caller (A, spanA) and
callee (B, spanB), callee_needles emits exactly one needle
(("c-callee", B), spanB) — placed at the callee's span — and
caller_needles emits exactly one needle (("c-called-by", A), spanA) —
placed at the caller's span, in edge order. -/
theorem callee_caller_needles_spans (graph : List CallEdge) :
    (callee_needles graph).length = graph.length ∧
    (caller_needles graph).length = graph.length ∧
    ∀ i, i < graph.length → ∃ e : CallEdge, graph[i]? = some e ∧
      (callee_needles graph)[i]? =
        some (("c-callee", e.callee.1), e.callee.2) ∧
      (caller_needles graph)[i]? =
        some (("c-called-by", e.caller.1), e.caller.2) := by
  refine ⟨List.length_map _ _, List.length_map _ _, fun i hi => ?_⟩
  refine ⟨graph[i], List.getElem?_eq_getElem hi, ?_, ?_⟩ <;>
    simp [callee_needles, caller_needles, List.getElem?_map,
      List.getElem?_eq_getElem hi]

/-- Witness for the amended C1 theorem at a concrete one-edge graph. -/
theorem callee_caller_needles_spans_witness :
    ∃ e : CallEdge,
      ([⟨("A", ⟨⟨1, 0⟩, ⟨1, 5⟩⟩), ("B", ⟨⟨2, 0⟩, ⟨2, 5⟩⟩)⟩] :
        List CallEdge)[0]? = some e ∧
      (callee_needles
        [⟨("A", ⟨⟨1, 0⟩, ⟨1, 5⟩⟩), ("B", ⟨⟨2, 0⟩, ⟨2, 5⟩⟩)⟩])[0]? =
        some (("c-callee", e.callee.1), e.callee.2) ∧
      (caller_needles
        [⟨("A", ⟨⟨1, 0⟩, ⟨1, 5⟩⟩), ("B", ⟨⟨2, 0⟩, ⟨2, 5⟩⟩)⟩])[0]? =
        some (("c-called-by", e.caller.1), e.caller.2) :=
  (callee_caller_needles_spans
    [⟨("A", ⟨⟨1, 0⟩, ⟨1, 5⟩⟩), ("B", ⟨⟨2, 0⟩, ⟨2, 5⟩⟩)⟩]).2.2 0 (by decide)

/-- The function fact used by the C3 counterexample: "D" (qualname
"D::f") overrides a target named "B" whose recorded span is on line 2. -/
def c3fact : Fact :=
  ⟨"D", "D::f", ⟨⟨5, 0⟩, ⟨5, 3⟩⟩, "function", "", none,
   some ⟨some "B", none, ⟨⟨2, 0⟩, ⟨2, 3⟩⟩⟩, "", ""⟩

/-- The condensed store used by the C3 counterexample. -/
def c3condensed : Condensed := [("function", TableVal.facts [c3fact])]

/-- Claim C3, counterexample: for the function fact "D" whose override
attribute names target "B", the claim predicts a c-overridden needle
valued with the overriding function's name "D"; the code instead values
it with the override target's name "B" — the emitted needles are exactly
[(("c-overridden", "B"), override span)]. -/
theorem overridden_needles_value_counterexample :
    overridden_needles c3condensed =
      [(("c-overridden", "B"), ⟨⟨2, 0⟩, ⟨2, 3⟩⟩)] ∧
    (("c-overridden", "D"), (⟨⟨2, 0⟩, ⟨2, 3⟩⟩ : Span)) ∉
      overridden_needles c3condensed := by
  decide

/-- Claim C3 (amended): for every function fact f carrying an override
attribute, and independently for each key k in {name, qualname} present
on the override, overrides_needles emits a c-overrides needle at f's own
span valued with the override target's name/qualname, and
overridden_needles emits a c-overridden needle at the override's
recorded span, likewise valued with the override target's
name/qualname; a key absent from the override attribute produces no
needle. -/
theorem override_needles_membership (condensed : Condensed)
    (nd : RelNeedle) :
    (nd ∈ overrides_needles condensed ↔
      ∃ f ∈ getTable condensed "function", ∃ o, f.override = some o ∧
        ∃ k v, overrideGet o k = some v ∧
          nd = (("c-overrides", v), f.span)) ∧
    (nd ∈ overridden_needles condensed ↔
      ∃ f ∈ getTable condensed "function", ∃ o, f.override = some o ∧
        ∃ k v, overrideGet o k = some v ∧
          nd = (("c-overridden", v), o.span)) := by
  constructor
  · rw [overrides_needles, List.mem_append, over_needles_mem,
      over_needles_mem]
    constructor
    · rintro (⟨f, hf, o, ho, v, hv, rfl⟩ | ⟨f, hf, o, ho, v, hv, rfl⟩)
      exacts [⟨f, hf, o, ho, NameKey.name, v, hv, rfl⟩,
        ⟨f, hf, o, ho, NameKey.qualname, v, hv, rfl⟩]
    · rintro ⟨f, hf, o, ho, k, v, hv, rfl⟩
      cases k
      · exact Or.inl ⟨f, hf, o, ho, v, hv, rfl⟩
      · exact Or.inr ⟨f, hf, o, ho, v, hv, rfl⟩
  · rw [overridden_needles, List.mem_append, over_needles_mem,
      over_needles_mem]
    constructor
    · rintro (⟨f, hf, o, ho, v, hv, rfl⟩ | ⟨f, hf, o, ho, v, hv, rfl⟩)
      exacts [⟨f, hf, o, ho, NameKey.name, v, hv, rfl⟩,
        ⟨f, hf, o, ho, NameKey.qualname, v, hv, rfl⟩]
    · rintro ⟨f, hf, o, ho, k, v, hv, rfl⟩
      cases k
      · exact Or.inl ⟨f, hf, o, ho, v, hv, rfl⟩
      · exact Or.inr ⟨f, hf, o, ho, v, hv, rfl⟩

/-- The type fact used by the C4 counterexample. -/
def c4fact : Fact :=
  ⟨"T", "NS::T", ⟨⟨3, 0⟩, ⟨3, 7⟩⟩, "class", "", none, none, "", ""⟩

/-- The condensed store used by the C4 counterexample: one fact in the
"type" table and no "typedef" table. -/
def c4condensed : Condensed := [("type", TableVal.facts [c4fact])]

/-- Claim C4, counterexample: with one fact in the "type" table, the
typedef-slot generator calls emit nothing (they read the "typedef"
table, not the "type" table), and the full pipeline emits exactly one
needle for the fact, tagged "c_type" — no needle under any typedef
tag is sourced from the "type" table. -/
theorem typedef_needles_counterexample :
    getTable c4condensed "type" = [c4fact] ∧
    qualified_needles c4condensed "type" (some "typedef") = [] ∧
    ref_needles c4condensed "type" (some "typedef") = [] ∧
    needles c4condensed (0 : Nat) (0 : Nat) =
      [⟨3, [⟨"c_type", NValue.nq "T" "NS::T", 0, some 7⟩]⟩] := by
  decide

/-- Claim C4 (amended): typedef needles are produced through the
alternate-table mechanism with "typedef" facts as their source: the
pipeline invokes the qualified and reference generators with kind
"type" and alternate table key "typedef", so every fact of the
"typedef" table yields one needle under the "c_type" tag, and the
reference facts of kind "typedef" yield "c_type_ref" needles. -/
theorem typedef_needles_from_typedef_table (condensed : Condensed) :
    qualified_needles condensed "type" (some "typedef") =
      (getTable condensed "typedef").map (fun f =>
        ("c_type", NValue.nq f.name f.qualname, f.span)) ∧
    ref_needles condensed "type" (some "typedef") =
      ((getTable condensed "ref").filter
          (fun r => r.kind == "typedef")).map (fun r =>
        ("c_type_ref", NValue.nq r.name r.qualname, r.span)) :=
  ⟨rfl, rfl⟩

/-- Claim C5: a condensed store that lacks an expected table is treated
by every generator, and by the full pipeline, as holding zero facts of
that kind: no needles are emitted and no error is raised. -/
theorem absent_tables_yield_no_needles {α β : Type}
    (condensed : Condensed) (kind : String) (condensed_key : Option String)
    (g : α) (i : β) :
    (lookupTable condensed (condensed_key.getD kind) = none →
      qualified_needles condensed kind condensed_key = []) ∧
    (lookupTable condensed "ref" = none →
      ref_needles condensed kind condensed_key = []) ∧
    (lookupTable condensed "warning" = none →
      warning_needles condensed = [] ∧
      warning_opt_needles condensed = []) ∧
    ((∀ key, lookupTable condensed key = none) →
      needles condensed g i = []) := by
  have hnil : ∀ key, lookupTable condensed key = none →
      getTable condensed key = [] := by
    intro key h
    unfold getTable
    rw [h]
  refine ⟨fun h => ?_, fun h => ?_, fun h => ⟨?_, ?_⟩, fun h => ?_⟩
  · simp [qualified_needles, hnil _ h]
  · simp [ref_needles, hnil _ h]
  · simp [warning_needles, hnil _ h]
  · simp [warning_opt_needles, hnil _ h]
  · simp only [needles, qualified_needles, ref_needles, warning_needles,
      warning_opt_needles, hnil _ (h _), split_into_lines,
      with_start_and_end, iterable_per_line, sortAsc, List.map_nil,
      List.filter_nil, List.append_nil, List.flatMap_nil]
    rfl

/-- Witness for the C5 theorem at the empty condensed store. -/
theorem absent_tables_yield_no_needles_witness :
    qualified_needles [] "function" none = [] ∧
    ref_needles [] "function" none = [] ∧
    (warning_needles [] = [] ∧ warning_opt_needles [] = []) ∧
    needles ([] : Condensed) (0 : Nat) (0 : Nat) = [] := by
  obtain ⟨h1, h2, h3, h4⟩ :=
    absent_tables_yield_no_needles ([] : Condensed) "function" none
      (0 : Nat) (0 : Nat)
  exact ⟨h1 rfl, h2 rfl, h3 rfl, h4 (fun key => rfl)⟩

/-- Claim C6: the qualified-entity generator emits exactly one needle
per fact of the selected table, in order, whose tag is c_kind, whose
value is the fact's name and qualname, and whose span is the fact's
span. -/
theorem qualified_needles_exact (condensed : Condensed) (kind : String)
    (condensed_key : Option String) :
    (qualified_needles condensed kind condensed_key).length =
      (getTable condensed (condensed_key.getD kind)).length ∧
    ∀ i, i < (getTable condensed (condensed_key.getD kind)).length →
      ∃ f, (getTable condensed (condensed_key.getD kind))[i]? = some f ∧
        (qualified_needles condensed kind condensed_key)[i]? =
          some ("c_" ++ kind, NValue.nq f.name f.qualname, f.span) := by
  refine ⟨List.length_map _ _, fun i hi => ?_⟩
  refine ⟨(getTable condensed (condensed_key.getD kind))[i],
    List.getElem?_eq_getElem hi, ?_⟩
  simp [qualified_needles, List.getElem?_map, List.getElem?_eq_getElem hi]

/-- Witness for the C6 theorem at a one-fact function table. -/
theorem qualified_needles_exact_witness :
    ∃ f, (getTable
        [("function", TableVal.facts
          [⟨"foo", "ns::foo", ⟨⟨1, 10⟩, ⟨1, 13⟩⟩, "", "", none, none,
            "", ""⟩])] "function")[0]? = some f ∧
      (qualified_needles
        [("function", TableVal.facts
          [⟨"foo", "ns::foo", ⟨⟨1, 10⟩, ⟨1, 13⟩⟩, "", "", none, none,
            "", ""⟩])] "function" none)[0]? =
        some ("c_" ++ "function", NValue.nq f.name f.qualname, f.span) :=
  (qualified_needles_exact
    [("function", TableVal.facts
      [⟨"foo", "ns::foo", ⟨⟨1, 10⟩, ⟨1, 13⟩⟩, "", "", none, none,
        "", ""⟩])] "function" none).2 0 (by decide)

/-- Claim C7: the reference generator emits a needle for a reference
fact exactly when its kind equals the requested key: the output has one
needle per matching reference, tagged c_kind_ref, valued with the
reference's name and qualname at the reference's own span, and every
output needle arises from a matching reference; non-matching references
are filtered, not an error. -/
theorem ref_needles_filter (condensed : Condensed) (kind : String)
    (condensed_key : Option String) :
    (ref_needles condensed kind condensed_key).length =
      (getTable condensed "ref").countP
        (fun r => r.kind == condensed_key.getD kind) ∧
    (∀ r ∈ getTable condensed "ref", r.kind = condensed_key.getD kind →
      ("c_" ++ kind ++ "_ref", NValue.nq r.name r.qualname, r.span) ∈
        ref_needles condensed kind condensed_key) ∧
    (∀ nd ∈ ref_needles condensed kind condensed_key,
      ∃ r ∈ getTable condensed "ref",
        r.kind = condensed_key.getD kind ∧
        nd = ("c_" ++ kind ++ "_ref",
          NValue.nq r.name r.qualname, r.span)) := by
  refine ⟨?_, fun r hr hk => ?_, fun nd hnd => ?_⟩
  · rw [ref_needles, List.length_map, List.countP_eq_length_filter]
  · exact List.mem_map.2
      ⟨r, List.mem_filter.2 ⟨hr, by simp [hk]⟩, rfl⟩
  · obtain ⟨r, hr, rfl⟩ := List.mem_map.1 hnd
    obtain ⟨hr2, hk⟩ := List.mem_filter.1 hr
    exact ⟨r, hr2, by simpa using hk, rfl⟩

/-- Witness for the C7 theorem at a one-reference store. -/
theorem ref_needles_filter_witness :
    ("c_" ++ "function" ++ "_ref", NValue.nq "foo" "ns::foo",
      (⟨⟨2, 4⟩, ⟨2, 7⟩⟩ : Span)) ∈
      ref_needles
        [("ref", TableVal.facts
          [⟨"foo", "ns::foo", ⟨⟨2, 4⟩, ⟨2, 7⟩⟩, "function", "", none,
            none, "", ""⟩])] "function" none :=
  (ref_needles_filter
    [("ref", TableVal.facts
      [⟨"foo", "ns::foo", ⟨⟨2, 4⟩, ⟨2, 7⟩⟩, "function", "", none,
        none, "", ""⟩])] "function" none).2.1
    ⟨"foo", "ns::foo", ⟨⟨2, 4⟩, ⟨2, 7⟩⟩, "function", "", none, none,
      "", ""⟩ (by decide) rfl

/-- Splitting a needle into per-line fragments preserves its tag. -/
theorem split_needle_tag (nd : Needle) (m : SplitNeedle)
    (hm : m ∈ split_needle nd) : m.tag = nd.1 := by
  obtain ⟨tag, v, sp⟩ := nd
  simp only [split_needle] at hm
  split at hm
  · simp only [List.mem_singleton] at hm
    subst hm
    rfl
  · simp only [List.mem_append, List.mem_cons, List.mem_map,
      List.mem_singleton, List.not_mem_nil, or_false] at hm
    rcases hm with (rfl | ⟨k, _, rfl⟩) | rfl <;> rfl

/-- Every fragment of every record of the folded pipeline carries the
tag of some needle of the input stream. -/
theorem pipeline_fragment_tags (L : List Needle) (p : String → Bool)
    (h : ∀ nd ∈ L, p nd.1 = true) :
    ∀ rec ∈ iterable_per_line (with_start_and_end (split_into_lines L)),
      ∀ f ∈ rec.fragments, p f.tag = true := by
  intro rec hrec f hf
  simp only [iterable_per_line, List.mem_map] at hrec
  obtain ⟨r, _, rfl⟩ := hrec
  simp only [List.mem_map, List.mem_filter] at hf
  obtain ⟨q, ⟨hq, _⟩, rfl⟩ := hf
  simp only [with_start_and_end, List.mem_map] at hq
  obtain ⟨sn, hsn, rfl⟩ := hq
  simp only [split_into_lines, List.mem_flatMap] at hsn
  obtain ⟨nd, hnd, hm⟩ := hsn
  have htag := split_needle_tag nd sn hm
  simpa [htag] using h nd hnd

/-- Every needle emitted by the qualified-entity generator carries the
tag c_kind. -/
theorem qualified_needles_tag (condensed : Condensed) (kind : String)
    (condensed_key : Option String) :
    ∀ nd ∈ qualified_needles condensed kind condensed_key,
      nd.1 = "c_" ++ kind := by
  intro nd hnd
  obtain ⟨f, _, rfl⟩ := List.mem_map.1 hnd
  rfl

/-- Every needle emitted by the reference generator carries the tag
c_kind_ref. -/
theorem ref_needles_tag (condensed : Condensed) (kind : String)
    (condensed_key : Option String) :
    ∀ nd ∈ ref_needles condensed kind condensed_key,
      nd.1 = "c_" ++ kind ++ "_ref" := by
  intro nd hnd
  obtain ⟨f, _, rfl⟩ := List.mem_map.1 hnd
  rfl

/-- Every needle emitted by warning_needles carries the tag c_warning. -/
theorem warning_needles_tag (condensed : Condensed) :
    ∀ nd ∈ warning_needles condensed, nd.1 = "c_warning" := by
  intro nd hnd
  obtain ⟨w, _, rfl⟩ := List.mem_map.1 hnd
  rfl

/-- Every needle emitted by warning_opt_needles carries the tag
c_warning_opt. -/
theorem warning_opt_needles_tag (condensed : Condensed) :
    ∀ nd ∈ warning_opt_needles condensed, nd.1 = "c_warning_opt" := by
  intro nd hnd
  obtain ⟨w, _, rfl⟩ := List.mem_map.1 hnd
  rfl

/-- Claim C2: the top-level needles function depends only on its first
argument — the other two are ignored — and every fragment of its output
carries a tag of the qualified, reference or warning families, never a
relational tag (c-callee, c-called-by, c-parent, c-child, c-member,
c-overrides, c-overridden, c-sig). -/
theorem needles_ignores_graph_and_inherit {α β γ δ : Type}
    (condensed : Condensed) (g1 : α) (i1 : β) (g2 : γ) (i2 : δ) :
    needles condensed g1 i1 = needles condensed g2 i2 ∧
    (needles condensed g1 i1).all (fun rec =>
      rec.fragments.all (fun f =>
        qualRefWarnTags.contains f.tag &&
        !(relationalTags.contains f.tag))) = true := by
  refine ⟨rfl, ?_⟩
  rw [List.all_eq_true]
  intro rec hrec
  rw [List.all_eq_true]
  rw [needles] at hrec
  refine pipeline_fragment_tags _
    (fun t => qualRefWarnTags.contains t && !(relationalTags.contains t))
    ?_ rec hrec
  intro nd hnd
  simp only [List.mem_append] at hnd
  rcases hnd with ((((((((((((h | h) | h) | h) | h) | h) | h) | h) | h)
    | h) | h) | h) | h) | h
  all_goals first
    | (rw [qualified_needles_tag _ _ _ nd h]; decide)
    | (rw [ref_needles_tag _ _ _ nd h]; decide)
    | (rw [warning_needles_tag _ nd h]; decide)
    | (rw [warning_opt_needles_tag _ nd h]; decide)

/-- Claim C8: for every class-kind type fact, child_needles emits one
c-child needle per direct child listed under the fact's name in the
inheritance map (none when the name is absent), at the fact's own span,
and parent_needles emits one c-parent needle per map entry whose child
set contains the fact's name, at the fact's own span — and nothing
else. -/
theorem inheritance_needles_membership (condensed : Condensed)
    (inherit : InheritMap) (nd : RelNeedle) :
    (nd ∈ child_needles condensed inherit ↔
      ∃ c ∈ getTable condensed "type", c.kind = "class" ∧
        ∃ x ∈ inheritGet inherit c.name,
          nd = (("c-child", x), c.span)) ∧
    (nd ∈ parent_needles condensed inherit ↔
      ∃ c ∈ getTable condensed "type", c.kind = "class" ∧
        ∃ parent children, (parent, children) ∈ inherit ∧
          c.name ∈ children ∧
          nd = (("c-parent", parent), c.span)) := by
  constructor
  · simp only [child_needles, inherit_needles, List.mem_flatMap,
      List.mem_filter, List.mem_map, beq_iff_eq]
    constructor
    · rintro ⟨c, ⟨hc, hk⟩, x, hx, rfl⟩
      exact ⟨c, hc, hk, x, hx, rfl⟩
    · rintro ⟨c, hc, hk, x, hx, rfl⟩
      exact ⟨c, ⟨hc, hk⟩, x, hx, rfl⟩
  · simp only [parent_needles, inherit_needles, List.mem_flatMap,
      List.mem_filter, List.mem_map, beq_iff_eq]
    constructor
    · rintro ⟨c, ⟨hc, hk⟩, x, ⟨q, ⟨hq, hmem⟩, rfl⟩, rfl⟩
      exact ⟨c, hc, hk, q.1, q.2, hq,
        by simpa using hmem, rfl⟩
    · rintro ⟨c, hc, hk, parent, children, hq, hmem, rfl⟩
      exact ⟨c, ⟨hc, hk⟩, parent,
        ⟨(parent, children), ⟨hq, by simpa using hmem⟩, rfl⟩, rfl⟩

/-- Length of a filterMap is the count of inputs on which the function
succeeds. -/
theorem length_filterMap_eq_countP {α β : Type} (g : α → Option β)
    (l : List α) :
    (l.filterMap g).length = l.countP (fun a => (g a).isSome) := by
  induction l with
  | nil => rfl
  | cons a l ih =>
    cases h : g a <;>
      simp [List.filterMap_cons, h, List.countP_cons, ih]

/-- Claim C9: member_needles emits exactly one c-member needle, valued
with the owning scope's name at the fact's own span, for every fact of
any table that carries a scope attribute; facts without a scope yield
nothing and mapping-valued tables are skipped entirely. -/
theorem member_needles_membership (condensed : Condensed)
    (nd : RelNeedle) :
    (nd ∈ member_needles condensed ↔
      ∃ tname fs, (tname, TableVal.facts fs) ∈ condensed ∧
        ∃ f ∈ fs, ∃ s, f.scope = some s ∧
          nd = (("c-member", s), f.span)) ∧
    (member_needles condensed).length =
      (condensed.map (fun entry =>
        match entry.2 with
        | TableVal.mapping _ => 0
        | TableVal.facts fs =>
            fs.countP (fun f => f.scope.isSome))).sum := by
  constructor
  · simp only [member_needles, List.mem_flatMap]
    constructor
    · rintro ⟨⟨tname, tv⟩, hentry, hnd⟩
      cases tv with
      | mapping m => simp at hnd
      | facts fs =>
        simp only [List.mem_filterMap, Option.map_eq_some'] at hnd
        obtain ⟨f, hf, s, hs, rfl⟩ := hnd
        exact ⟨tname, fs, hentry, f, hf, s, hs, rfl⟩
    · rintro ⟨tname, fs, hentry, f, hf, s, hs, rfl⟩
      exact ⟨(tname, TableVal.facts fs), hentry,
        List.mem_filterMap.2 ⟨f, hf, by rw [hs]; rfl⟩⟩
  · rw [member_needles, List.length_flatMap]
    congr 1
    apply List.map_congr_left
    rintro ⟨tname, tv⟩ _
    cases tv with
    | mapping m => rfl
    | facts fs =>
      simp only [Function.comp_apply, length_filterMap_eq_countP]
      congr 1
      funext a
      cases h : a.scope <;> simp [h]

/-- Claim C10: for every warning fact, warning_needles emits exactly one
c_warning needle valued with the warning's message and
warning_opt_needles exactly one c_warning_opt needle valued with the
triggering compiler option, both at the warning's span, in table
order. -/
theorem warning_needles_exact (condensed : Condensed) :
    (warning_needles condensed).length =
      (getTable condensed "warning").length ∧
    (warning_opt_needles condensed).length =
      (getTable condensed "warning").length ∧
    ∀ i, i < (getTable condensed "warning").length →
      ∃ w, (getTable condensed "warning")[i]? = some w ∧
        (warning_needles condensed)[i]? =
          some ("c_warning", NValue.n w.msg, w.span) ∧
        (warning_opt_needles condensed)[i]? =
          some ("c_warning_opt", NValue.n w.opt, w.span) := by
  refine ⟨List.length_map _ _, List.length_map _ _, fun i hi => ?_⟩
  refine ⟨(getTable condensed "warning")[i],
    List.getElem?_eq_getElem hi, ?_, ?_⟩ <;>
    simp [warning_needles, warning_opt_needles, List.getElem?_map,
      List.getElem?_eq_getElem hi]

/-- Witness for the C10 theorem at a one-warning store. -/
theorem warning_needles_exact_witness :
    ∃ w, (getTable
        [("warning", TableVal.facts
          [⟨"", "", ⟨⟨7, 0⟩, ⟨7, 6⟩⟩, "", "", none, none, "unused",
            "-Wunused"⟩])] "warning")[0]? = some w ∧
      (warning_needles
        [("warning", TableVal.facts
          [⟨"", "", ⟨⟨7, 0⟩, ⟨7, 6⟩⟩, "", "", none, none, "unused",
            "-Wunused"⟩])])[0]? =
        some ("c_warning", NValue.n w.msg, w.span) ∧
      (warning_opt_needles
        [("warning", TableVal.facts
          [⟨"", "", ⟨⟨7, 0⟩, ⟨7, 6⟩⟩, "", "", none, none, "unused",
            "-Wunused"⟩])])[0]? =
        some ("c_warning_opt", NValue.n w.opt, w.span) :=
  (warning_needles_exact
    [("warning", TableVal.facts
      [⟨"", "", ⟨⟨7, 0⟩, ⟨7, 6⟩⟩, "", "", none, none, "unused",
        "-Wunused"⟩])]).2.2 0 (by decide)

end DxrClang
